import Mathlib

/-!
Shallow embedding of the sparse `algebra::Matrix<T, Store>` container from
`src/include/Matrix.hpp`, `src/include/Matrix_row_impl.hpp`,
`src/include/Matrix_col_impl.hpp` and `src/include/Utilities.hpp`.

Modelling choices:
* Scalars `T` are embedded as `Int`: exact arithmetic.  The embedded
  operations use only addition, multiplication, absolute value and maximum
  on `T`, so the integer instance of the `template <class T>` code
  exercises every claim below while staying kernel-computable.
* The `std::map<std::array<std::size_t,2>, T, Cmp>` coordinate store is
  embedded as the list of its entries in iteration order (strictly sorted by
  the comparator, keys unique), as the C++ range-for observes it.
* `std::vector` reads that the C++ performs unchecked are embedded with
  `List.getD _ 0`; every use proved about below stays in bounds except where
  a claim is precisely about an out-of-range access, and there the divergence
  is recorded.  An out-of-range `vector::operator[]` *write* (undefined
  behavior in C++) is embedded as `List.set`, which is a no-op out of range.
* Operations whose very first step dereferences `rbegin()` of a possibly
  empty map (undefined behavior) return `Option`, `none` on the empty store.
* A thrown `std::invalid_argument` is embedded as a returned `Bool` flag
  `true`, paired with the (unmodified) state.
-/

namespace PacsCH2

/-- A coordinate `(row, col)`, i.e. the C++ `std::array<std::size_t, 2>`
key with `k[0] = row`, `k[1] = col`. -/
abbrev Coord := Nat × Nat

/-- The compile-time storage-order tag `algebra::StorageOrder` from
`src/include/Utilities.hpp`. -/
inductive StorageOrder where
  | row
  | col
deriving DecidableEq

/-- Embeds `RowOrderComparator::operator()` from `src/include/Utilities.hpp`:
`(a[0] < b[0]) || ((a[0] == b[0]) && (a[1] < b[1]))`. -/
def rowOrderLt (a b : Coord) : Bool :=
  a.1 < b.1 || (a.1 == b.1 && a.2 < b.2)

/-- Embeds `ColOrderComparator::operator()` from `src/include/Utilities.hpp`:
`(a[1] < b[1]) || ((a[1] == b[1]) && (a[0] < b[0]))`. -/
def colOrderLt (a b : Coord) : Bool :=
  a.2 < b.2 || (a.2 == b.2 && a.1 < b.1)

/-- The comparator selected by the storage-order template argument in
`Matrix::EntryValuesMap` (`src/include/Matrix.hpp`, lines 18-21). -/
def ltOf (so : StorageOrder) : Coord → Coord → Bool :=
  match so with
  | .row => rowOrderLt
  | .col => colOrderLt

/-- One stored entry `(row, col) -> value` of the coordinate store. -/
abbrev Entry := Coord × Int

/-- The coordinate store `_entry_value_map`, as the list of its entries in
map-iteration order. -/
abbrev EntryMap := List Entry

/-- The primary index of a coordinate: the row for row-major storage and the
column for column-major storage (the axis `_vec1` is indexed by). -/
def primaryOf (so : StorageOrder) (r c : Nat) : Nat :=
  match so with
  | .row => r
  | .col => c

/-- The secondary index of a coordinate: the column for row-major storage and
the row for column-major storage (the axis stored in `_vec2`). -/
def secondaryOf (so : StorageOrder) (r c : Nat) : Nat :=
  match so with
  | .row => c
  | .col => r

/-- Rebuild a `(row, col)` coordinate from a primary and a secondary index;
inverse of `primaryOf`/`secondaryOf`. -/
def coordOf (so : StorageOrder) (p s : Nat) : Coord :=
  match so with
  | .row => (p, s)
  | .col => (s, p)

/-- The state of a `Matrix<T, Store>` object: the mode flag `_is_compressed`,
the coordinate store `_entry_value_map` and the three compressed vectors
`_vec1`, `_vec2`, `_values` (`src/include/Matrix.hpp`, lines 401-408). -/
structure MatrixState where
  isCompressed : Bool
  emap : EntryMap
  vec1 : List Nat
  vec2 : List Nat
  values : List Int
deriving DecidableEq

/-- The state produced by the uncompressed constructor
`Matrix(EntryValuesMap&)` (`src/include/Matrix.hpp`, lines 31-36): mode flag
false, the given coordinate store, empty vectors. -/
def uncState (l : EntryMap) : MatrixState :=
  { isCompressed := false, emap := l, vec1 := [], vec2 := [], values := [] }

/-- Embeds the `std::map::insert_or_assign` semantics of `_entry_value_map[key] = v` on
a comparator-sorted entry list: overwrite on an equivalent key, otherwise
insert at the sorted position. -/
def mapInsert (lt : Coord → Coord → Bool) (k : Coord) (v : Int) :
    EntryMap → EntryMap
  | [] => [(k, v)]
  | (k', v') :: rest =>
    if lt k k' then (k, v) :: (k', v') :: rest
    else if lt k' k then (k', v') :: mapInsert lt k v rest
    else (k, v) :: rest

/-- Embeds `res[i] += x` on a `std::vector` embedded as a list; an out-of-range
write (UB in C++) is a no-op here. -/
def listAddAt (l : List Int) (i : Nat) (x : Int) : List Int :=
  l.set i (l.getD i 0 + x)

/-- Embeds `*max_element(begin, end)` over a list, `none` on the empty range (where
the C++ would dereference the end iterator: UB). -/
def maxElem {α : Type} [Max α] : List α → Option α
  | [] => none
  | x :: xs => some (xs.foldl (fun a b => max a b) x)

/-- The offset-filling loop of `Matrix::_compress_row`
(`src/include/Matrix_row_impl.hpp`, lines 41-49) and of
`Matrix::_compress_col` (`src/include/Matrix_col_impl.hpp`, lines 43-51):
for each entry in map order, `_vec1[primary + 1] = ++num_non_zero`.
Offsets of primary slots without entries are left untouched. -/
def fillOffsets (so : StorageOrder) : EntryMap → List Nat → Nat → List Nat
  | [], v1, _ => v1
  | (k, _) :: rest, v1, cnt =>
    fillOffsets so rest (v1.set (primaryOf so k.1 k.2 + 1) (cnt + 1)) (cnt + 1)

/-- Embeds `Matrix::compress` (`src/include/Matrix.hpp`, lines 206-212) dispatching
to `_compress_row` (`src/include/Matrix_row_impl.hpp`, lines 17-54) or
`_compress_col` (`src/include/Matrix_col_impl.hpp`, lines 16-56).
`_entry_value_map.rbegin()` on an empty store is UB, hence `none`; otherwise
`_vec1` is resized (from empty, in any state the uncompressed constructor or
`uncompress` can produce) to `last primary + 2` zeros and filled by the scan,
`_vec2` receives the secondary indices, `_values` the values, the mode flag
is set and the store cleared. -/
def compress (so : StorageOrder) (m : MatrixState) : Option MatrixState :=
  match m.emap.getLast? with
  | none => none
  | some e =>
    some { isCompressed := true
           emap := []
           vec1 := fillOffsets so m.emap
             (List.replicate (primaryOf so e.1.1 e.1.2 + 2) 0) 0
           vec2 := m.emap.map (fun x => secondaryOf so x.1.1 x.1.2)
           values := m.emap.map (fun x => x.2) }

/-- Embeds `Matrix::uncompress` (`src/include/Matrix.hpp`, lines 217-223)
dispatching to `_uncompress_row` (`src/include/Matrix_row_impl.hpp`,
lines 62-84) or `_uncompress_col` (`src/include/Matrix_col_impl.hpp`,
lines 64-86): for each primary slot `p` below `_vec1.size() - 1` and each
position `j` in `[_vec1[p], _vec1[p+1])`, insert the entry with coordinate
built from `p` and `_vec2[j]` and value `_values[j]`; then clear the three
vectors and reset the mode flag. -/
def uncompress (so : StorageOrder) (m : MatrixState) : MatrixState :=
  { isCompressed := false
    emap :=
      (List.range (m.vec1.length - 1)).foldl (fun acc p =>
        (List.range' (m.vec1.getD p 0)
            (m.vec1.getD (p + 1) 0 - m.vec1.getD p 0)).foldl
          (fun acc j =>
            mapInsert (ltOf so) (coordOf so p (m.vec2.getD j 0))
              (m.values.getD j 0) acc) acc)
        m.emap
    vec1 := []
    vec2 := []
    values := [] }

/-- Embeds `Matrix::_find_uncompressed_element` (`src/include/Matrix.hpp`,
lines 333-344): map lookup, `0` when absent. -/
def findUncompressedElement (m : MatrixState) (r c : Nat) : Int :=
  match m.emap.find? (fun e => e.1 == (r, c)) with
  | some e => e.2
  | none => 0

/-- The search loop shared by `_find_compressed_element_row`
(`src/include/Matrix_row_impl.hpp`, lines 96-140) and
`_find_compressed_element_col` (`src/include/Matrix_col_impl.hpp`,
lines 98-143): scan positions `j` in `[_vec1[p], _vec1[p+1])` of the primary
slot `p` and return the first `j` whose `_vec2[j]` equals the secondary
index, `none` when the coordinate is absent from the sparsity pattern. -/
def findCompressedIndex (so : StorageOrder) (m : MatrixState)
    (r c : Nat) : Option Nat :=
  (List.range' (m.vec1.getD (primaryOf so r c) 0)
      (m.vec1.getD (primaryOf so r c + 1) 0 -
        m.vec1.getD (primaryOf so r c) 0)).find?
    (fun j => m.vec2.getD j 0 == secondaryOf so r c)

/-- The const getter `Matrix::operator()(row, col) const`
(`src/include/Matrix.hpp`, lines 130-142): map lookup in uncompressed mode;
in compressed mode the slot scan, returning the stored value or `0`. -/
def getValue (so : StorageOrder) (m : MatrixState) (r c : Nat) : Int :=
  if m.isCompressed = false then findUncompressedElement m r c
  else
    match findCompressedIndex so m r c with
    | some j => m.values.getD j 0
    | none => 0

/-- The mutating call `matrix(row, col) = v` through the non-const
`Matrix::operator()` (`src/include/Matrix.hpp`, lines 103-119): in
uncompressed mode `_entry_value_map[{row, col}] = v`; in compressed mode the
slot scan of `_find_compressed_element_row/_col` — on success the found
`_values` slot is overwritten, on failure `std::invalid_argument` is thrown
(flag `true`) before any write, leaving the state untouched. -/
def setValue (so : StorageOrder) (m : MatrixState) (r c : Nat) (v : Int) :
    MatrixState × Bool :=
  if m.isCompressed = false then
    ({ m with emap := mapInsert (ltOf so) (r, c) v m.emap }, false)
  else
    match findCompressedIndex so m r c with
    | some j => ({ m with values := m.values.set j v }, false)
    | none => (m, true)

/-- The accumulation loop of `Matrix::_matrix_vector_uncompressed`
(`src/include/Matrix.hpp`, lines 371-380): for every stored entry,
`res[k[0]] += vec[k[1]] * v`. -/
def mulAccum (l : EntryMap) (x : List Int) (res : List Int) : List Int :=
  l.foldl (fun res e => listAddAt res e.1.1 (x.getD e.1.2 0 * e.2)) res

/-- Embeds `Matrix::_matrix_vector_uncompressed` (`src/include/Matrix.hpp`,
lines 353-382).  Row storage: `num_rows = _entry_value_map.rbegin()->first[0]`
(UB on the empty store, hence `none`; note the source has no `+ 1` here).
Column storage: `num_rows` is the maximum stored row index, folded over the
entries (again no `+ 1`).  The accumulator is `num_rows` zeros. -/
def matVecUncompressed (so : StorageOrder) (m : MatrixState)
    (x : List Int) : Option (List Int) :=
  match so with
  | .row =>
    match m.emap.getLast? with
    | none => none
    | some e => some (mulAccum m.emap x (List.replicate e.1.1 0))
  | .col =>
    some (mulAccum m.emap x
      (List.replicate (m.emap.foldl (fun a e => max a e.1.1) 0) 0))

/-- Embeds `Matrix::_matrix_vector_row` (`src/include/Matrix_row_impl.hpp`,
lines 150-164): the accumulator has `_vec1.size() - 1` zeros; for each row
`p` and each `j` in `[_vec1[p], _vec1[p+1])`,
`res[p] += vec[_vec2[j]] * _values[j]`. -/
def matVecRow (m : MatrixState) (x : List Int) : List Int :=
  (List.range (m.vec1.length - 1)).foldl (fun res p =>
      (List.range' (m.vec1.getD p 0)
          (m.vec1.getD (p + 1) 0 - m.vec1.getD p 0)).foldl
        (fun res j =>
          listAddAt res p (x.getD (m.vec2.getD j 0) 0 * m.values.getD j 0))
        res)
    (List.replicate (m.vec1.length - 1) 0)

/-- The per-column absolute-value accumulation
`sum_abs_per_col[k[1]] += std::abs(v)` shared by both branches of
`Matrix::_one_norm_uncompressed` (`src/include/Matrix.hpp`,
lines 292-295). -/
def colSumsFold (l : EntryMap) (s : List Int) : List Int :=
  l.foldl (fun s e => listAddAt s e.1.2 |e.2|) s

/-- The per-row absolute-value accumulation
`sum_abs_per_row[k[0]] += std::abs(v)` of `Matrix::_max_norm_uncompressed`
(`src/include/Matrix.hpp`, lines 316-319). -/
def rowSumsFold (l : EntryMap) (s : List Int) : List Int :=
  l.foldl (fun s e => listAddAt s e.1.1 |e.2|) s

/-- Embeds `Matrix::_one_norm_uncompressed` (`src/include/Matrix.hpp`,
lines 277-297).  Row storage: `num_cols` is folded as
`max(num_cols, k[1] + 1)` over the entries.  Column storage:
`num_cols = _entry_value_map.rbegin()->first[1] + 1` (UB on the empty store,
hence `none`).  Then the per-column sums and their maximum; the maximum of an
empty accumulator is UB, hence `none`. -/
def oneNormUncompressed (so : StorageOrder) (m : MatrixState) : Option Int :=
  match so with
  | .row =>
    maxElem (colSumsFold m.emap
      (List.replicate (m.emap.foldl (fun a e => max a (e.1.2 + 1)) 0) 0))
  | .col =>
    match m.emap.getLast? with
    | none => none
    | some e => maxElem (colSumsFold m.emap (List.replicate (e.1.2 + 1) 0))

/-- Embeds `Matrix::_max_norm_uncompressed` (`src/include/Matrix.hpp`,
lines 304-321).  Row storage:
`num_rows = _entry_value_map.rbegin()->first[0] + 1` (UB on the empty store,
hence `none`).  Column storage: `num_rows` folded as `max(num_rows, k[0]+1)`.
Then the per-row sums and their maximum. -/
def maxNormUncompressed (so : StorageOrder) (m : MatrixState) : Option Int :=
  match so with
  | .row =>
    match m.emap.getLast? with
    | none => none
    | some e => maxElem (rowSumsFold m.emap (List.replicate (e.1.1 + 1) 0))
  | .col =>
    maxElem (rowSumsFold m.emap
      (List.replicate (m.emap.foldl (fun a e => max a (e.1.1 + 1)) 0) 0))

/-- Embeds `Matrix::_one_norm_compressed_row` (`src/include/Matrix_row_impl.hpp`,
lines 198-209): `num_cols = *max_element(_vec2)` (UB when `_vec2` is empty,
hence `none`; note the source has no `+ 1` here), an accumulator of
`num_cols` zeros, `sum_abs_per_col[_vec2[j]] += std::abs(_values[j])` for
every position `j`, then the maximum of the accumulator. -/
def oneNormCompressedRow (m : MatrixState) : Option Int :=
  match maxElem m.vec2 with
  | none => none
  | some numCols =>
    maxElem ((List.range m.vec2.length).foldl
      (fun s j => listAddAt s (m.vec2.getD j 0) |m.values.getD j 0|)
      (List.replicate numCols 0))


/-! Concrete coordinate mappings used as inputs below (all strictly sorted in
row-major order, i.e. valid iteration orders of a row-major
`_entry_value_map`). -/

/-- Mapping with an empty interior row: entries at rows 0 and 2, none at
row 1. -/
def exM1 : EntryMap := [((0, 0), 1), ((2, 1), 2)]

/-- The concrete input mapping of the spec scenario:
`(0,0) -> 4, (1,2) -> -17, (3,3) -> 4` (row 2 is empty). -/
def exM2 : EntryMap := [((0, 0), 4), ((1, 2), -17), ((3, 3), 4)]

/-- A single-entry mapping at coordinate `(0, 0)`. -/
def exM3 : EntryMap := [((0, 0), 2)]

/-- A single-entry mapping at coordinate `(0, 1)`. -/
def exM4 : EntryMap := [((0, 1), 1)]

/-- A compressed row-major state as `_compress_row` builds it from `exM2`. -/
def csEx : MatrixState :=
  { isCompressed := true, emap := [], vec1 := [0, 1, 2, 0, 3],
    vec2 := [0, 2, 3], values := [4, -17, 4] }

/-! Helper lemmas shared by the theorems below. -/

lemma maxElem_isSome {α : Type} [Max α] {l : List α} (h : l ≠ []) :
    (maxElem l).isSome := by
  cases l with
  | nil => exact absurd rfl h
  | cons x xs => rfl

lemma length_listAddAt (s : List Int) (i : Nat) (x : Int) :
    (listAddAt s i x).length = s.length := by
  simp [listAddAt]

lemma length_foldl_listAddAt {γ : Type} (f : γ → Nat) (g : γ → Int) :
    ∀ (l : List γ) (s : List Int),
      (l.foldl (fun s e => listAddAt s (f e) (g e)) s).length = s.length := by
  intro l
  induction l with
  | nil => intro s; rfl
  | cons e rest ih =>
    intro s
    rw [List.foldl_cons, ih, length_listAddAt]

lemma foldl_max_le {γ : Type} (f : γ → Nat) :
    ∀ (l : List γ) (a : Nat), a ≤ l.foldl (fun acc e => max acc (f e)) a := by
  intro l
  induction l with
  | nil => intro a; exact Nat.le_refl a
  | cons e rest ih =>
    intro a
    exact Nat.le_trans (Nat.le_max_left a (f e)) (ih (max a (f e)))

lemma length_colSumsFold (l : EntryMap) (s : List Int) :
    (colSumsFold l s).length = s.length := by
  unfold colSumsFold
  exact length_foldl_listAddAt (fun e => e.1.2) (fun e => |e.2|) l s

lemma length_rowSumsFold (l : EntryMap) (s : List Int) :
    (rowSumsFold l s).length = s.length := by
  unfold rowSumsFold
  exact length_foldl_listAddAt (fun e => e.1.1) (fun e => |e.2|) l s

/-- C1: the round-trip claim fails on the code.  For the mapping
`exM1 = {(0,0): 1, (2,1): 2}` (row 1 empty) in row-major order,
`compress(); uncompress()` yields the mapping
`{(0,0): 1, (2,0): 1, (2,1): 2}`, which differs from `exM1`: the stale zero
offset that `_compress_row` leaves for the empty row 1 makes
`_uncompress_row` replay position 0 into row 2, inventing the key `(2,0)`. -/
theorem compress_uncompress_roundtrip_gap :
    (compress .row (uncState exM1)).map (fun s => (uncompress .row s).emap)
      = some [((0, 0), (1 : Int)), ((2, 0), 1), ((2, 1), 2)] ∧
    [((0, 0), (1 : Int)), ((2, 0), 1), ((2, 1), 2)] ≠ exM1 := by
  decide

/-- C2: the running-counter claim fails on the code.  For
`exM1 = {(0,0): 1, (2,1): 2}` (row-major), `_compress_row` produces
`offsets = [0, 1, 0, 2]`: the offset of the empty slot 1 is left at its
zero-initialised value instead of being set to the prior counter value 1
(the number of entries in slots 0..1), because the scan writes
`offsets[k[0]+1]` only for slots that have entries. -/
theorem compress_offsets_empty_slot_stale :
    (compress .row (uncState exM1)).map (fun s => s.vec1)
      = some [0, 1, 0, 2] ∧
    ([0, 1, 0, 2] : List Nat).getD 2 0 ≠ 1 := by
  decide

/-- C3: mode-invariance of the const getter fails on the code.  For
`exM1 = {(0,0): 1, (2,1): 2}` (row-major) and the in-range coordinate
`(2, 0)` (absent from the mapping), the getter returns `0` before
`compress()` but `1` after it: the stale zero offset of the empty row 1
makes the compressed slot scan of row 2 start at position 0 and find the
column index of the entry `(0,0)`. -/
theorem getValue_mode_dependent_on_gap :
    getValue .row (uncState exM1) 2 0 = 0 ∧
    (compress .row (uncState exM1)).map (fun s => getValue .row s 2 0)
      = some 1 ∧
    (0 : Int) ≠ 1 := by
  decide

/-- C4: the uncompressed multiply claim fails on the code.  For
`exM2 = {(0,0): 4, (1,2): -17, (3,3): 4}` (max row index 3) and
`x = [1,1,1,1]`, `_matrix_vector_uncompressed` sizes the accumulator with
`num_rows = rbegin()->first[0]` — without the `+ 1` the claim states — so
the result has length 3, not 4, and the store into `res[3]` is an
out-of-range write (embedded as a no-op): the result is `[4, -17, 0]`. -/
theorem matVecUncompressed_missing_last_row :
    matVecUncompressed .row (uncState exM2) [1, 1, 1, 1]
      = some [4, -17, 0] ∧
    ([4, -17, 0] : List Int).length ≠ 3 + 1 := by
  decide

/-- C5: mode-invariance of multiply fails on the code.  For
`exM3 = {(0,0): 2}` and `x = [3]`, the uncompressed product is the empty
vector (the accumulator is sized `num_rows = 0` by the missing `+ 1`, and
the store into `res[0]` is out of range), while after `compress()` the CSR
product is `[6]`. -/
theorem multiply_mode_disagreement :
    matVecUncompressed .row (uncState exM3) [3] = some [] ∧
    (compress .row (uncState exM3)).map (fun s => matVecRow s [3])
      = some [6] ∧
    ([] : List Int) ≠ [6] := by
  decide

/-- C6: on a compressed matrix (either storage order), a mutable access to a
coordinate whose primary slot is in range of `offsets` but whose secondary
index does not occur among `indices` within that slot's offset range throws
`std::invalid_argument` (flag `true`) and leaves the mode flag, the
coordinate store and all three arrays unchanged. -/
theorem setValue_absent_slot_throws_unchanged (so : StorageOrder)
    (m : MatrixState) (r c : Nat) (v : Int)
    (hc : m.isCompressed = true)
    (hr : primaryOf so r c + 1 < m.vec1.length)
    (habs : ∀ j, m.vec1.getD (primaryOf so r c) 0 ≤ j →
        j < m.vec1.getD (primaryOf so r c + 1) 0 →
        m.vec2.getD j 0 ≠ secondaryOf so r c) :
    setValue so m r c v = (m, true) ∧
    (setValue so m r c v).1.vec1 = m.vec1 ∧
    (setValue so m r c v).1.vec2 = m.vec2 ∧
    (setValue so m r c v).1.values = m.values ∧
    (setValue so m r c v).1.isCompressed = m.isCompressed ∧
    (setValue so m r c v).1.emap = m.emap := by
  have _hr := hr
  have hnone : findCompressedIndex so m r c = none := by
    apply List.find?_eq_none.mpr
    intro j hj
    rw [List.mem_range'_1] at hj
    simp only [beq_iff_eq]
    apply habs j hj.1
    omega
  have h : setValue so m r c v = (m, true) := by
    simp [setValue, hc, hnone]
  rw [h]
  exact ⟨rfl, rfl, rfl, rfl, rfl, rfl⟩

/-- Witness for C6: the compressed state `csEx` (built by `_compress_row`
from `exM2`) with the in-range coordinate `(0, 1)`, absent from row 0's
slot, throws and is unchanged. -/
theorem setValue_absent_slot_throws_unchanged_applied :
    setValue .row csEx 0 1 5 = (csEx, true) ∧
    (setValue .row csEx 0 1 5).1.vec1 = csEx.vec1 ∧
    (setValue .row csEx 0 1 5).1.vec2 = csEx.vec2 ∧
    (setValue .row csEx 0 1 5).1.values = csEx.values ∧
    (setValue .row csEx 0 1 5).1.isCompressed = csEx.isCompressed ∧
    (setValue .row csEx 0 1 5).1.emap = csEx.emap :=
  setValue_absent_slot_throws_unchanged .row csEx 0 1 5 rfl (by decide)
    (by
      intro j h1 h2
      have h2' : j < 1 := h2
      have hj : j = 0 := by omega
      subst hj
      decide)

/-- C7: the compressed-triple invariant claim fails on the code.  For
`exM1 = {(0,0): 1, (2,1): 2}` (row-major), `_compress_row` yields
`offsets = [0, 1, 0, 2]`, which is not monotonically non-decreasing:
`offsets[1] = 1 > 0 = offsets[2]` (the stale offset of the empty slot 1). -/
theorem compress_offsets_not_monotone :
    (compress .row (uncState exM1)).map (fun s => s.vec1)
      = some [0, 1, 0, 2] ∧
    ¬ (([0, 1, 0, 2] : List Nat).getD 1 0 ≤ ([0, 1, 0, 2] : List Nat).getD 2 0) := by
  decide

/-- C8: norm agreement fails on the code.  For `exM4 = {(0,1): 1}`
(row-major), the uncompressed one-norm is `1`, but after `compress()` the
compressed one-norm is `0`: `_one_norm_compressed_row` sizes its per-column
accumulator with `num_cols = *max_element(_vec2)` — without `+ 1` — so the
accumulation into column 1 is an out-of-range write (embedded as a no-op)
and the maximum of the one-slot accumulator stays `0`. -/
theorem one_norm_mode_disagreement :
    oneNormUncompressed .row (uncState exM4) = some 1 ∧
    (compress .row (uncState exM4)).map oneNormCompressedRow
      = some (some 0) ∧
    some (0 : Int) ≠ some 1 := by
  decide

/-- C9 (counterexample): on the spec's concrete scenario
`exM2 = {(0,0): 4, (1,2): -17, (3,3): 4}` (row-major), `compress()` yields
`offsets = [0, 1, 2, 0, 3]`, not the claimed `[0, 1, 1, 2, 3]`. -/
theorem concrete_scenario_offsets_differ :
    (compress .row (uncState exM2)).map (fun s => s.vec1)
      = some [0, 1, 2, 0, 3] ∧
    ([0, 1, 2, 0, 3] : List Nat) ≠ [0, 1, 1, 2, 3] := by
  decide

/-- C9 (amended): on `exM2` (row-major), `compress()` yields
`offsets = [0, 1, 2, 0, 3]`, `indices = [0, 2, 3]`, `values = [4, -17, 4]`
(the state `csEx`), and `multiply([1,1,1,1])` on the compressed matrix
yields `[4, -17, 0, -9]`. -/
theorem concrete_scenario_actual_outputs :
    compress .row (uncState exM2) = some csEx ∧
    matVecRow csEx [1, 1, 1, 1] = [4, -17, 0, -9] := by
  decide

/-- C10 (counterexample): the claim that every listed dimension-inferring
operation dereferences the last element of the coordinate store and has no
defined result on the empty store is false for the column-storage
uncompressed multiply: its `num_rows` is a fold over the entries, it never
touches `rbegin()`, and on the empty store it returns the empty vector. -/
theorem col_multiply_empty_store_defined :
    matVecUncompressed .col (uncState []) [] = some [] := rfl

/-- C10 (amended): `compress` for both storage orders, the row-storage
uncompressed multiply, the column-storage uncompressed one-norm and the
row-storage uncompressed max-norm dereference the last element of the
coordinate store, so in the total embedding they are defined (`isSome`)
whenever the store is non-empty and undefined (`none`) on the empty store;
the fold-based row-storage one-norm and column-storage max-norm are also
defined on every non-empty store and undefined on the empty store (maximum
of an empty accumulator); the column-storage uncompressed multiply, by
contrast, is total and returns the empty vector on the empty store. -/
theorem dimension_inference_definedness :
    (∀ (m : MatrixState) (x : List Int), m.emap ≠ [] →
      (compress .row m).isSome ∧ (compress .col m).isSome ∧
      (matVecUncompressed .row m x).isSome ∧
      (oneNormUncompressed .col m).isSome ∧
      (maxNormUncompressed .row m).isSome ∧
      (oneNormUncompressed .row m).isSome ∧
      (maxNormUncompressed .col m).isSome) ∧
    compress .row (uncState []) = none ∧
    compress .col (uncState []) = none ∧
    (∀ x, matVecUncompressed .row (uncState []) x = none) ∧
    oneNormUncompressed .col (uncState []) = none ∧
    maxNormUncompressed .row (uncState []) = none ∧
    oneNormUncompressed .row (uncState []) = none ∧
    maxNormUncompressed .col (uncState []) = none ∧
    (∀ x, matVecUncompressed .col (uncState []) x = some []) := by
  constructor
  · intro m x h
    obtain ⟨e, he⟩ := Option.isSome_iff_exists.mp (List.getLast?_isSome.mpr h)
    refine ⟨?_, ?_, ?_, ?_, ?_, ?_, ?_⟩
    · simp [compress, he]
    · simp [compress, he]
    · simp [matVecUncompressed, he]
    · have hlen : (colSumsFold m.emap (List.replicate (e.1.2 + 1) 0)).length
          = e.1.2 + 1 := by
        rw [length_colSumsFold, List.length_replicate]
      simp only [oneNormUncompressed, he]
      apply maxElem_isSome
      intro hnil
      rw [hnil] at hlen
      simp at hlen
    · have hlen : (rowSumsFold m.emap (List.replicate (e.1.1 + 1) 0)).length
          = e.1.1 + 1 := by
        rw [length_rowSumsFold, List.length_replicate]
      simp only [maxNormUncompressed, he]
      apply maxElem_isSome
      intro hnil
      rw [hnil] at hlen
      simp at hlen
    · obtain ⟨f, rest, hcons⟩ := List.exists_cons_of_ne_nil h
      have h1 : 1 ≤ m.emap.foldl (fun a e => max a (e.1.2 + 1)) 0 := by
        rw [hcons, List.foldl_cons]
        calc 1 ≤ max 0 (f.1.2 + 1) := by omega
        _ ≤ _ := foldl_max_le (fun e => e.1.2 + 1) rest _
      have hlen : (colSumsFold m.emap (List.replicate
          (m.emap.foldl (fun a e => max a (e.1.2 + 1)) 0) 0)).length
          = m.emap.foldl (fun a e => max a (e.1.2 + 1)) 0 := by
        rw [length_colSumsFold, List.length_replicate]
      simp only [oneNormUncompressed]
      apply maxElem_isSome
      intro hnil
      rw [hnil] at hlen
      simp at hlen
      omega
    · obtain ⟨f, rest, hcons⟩ := List.exists_cons_of_ne_nil h
      have h1 : 1 ≤ m.emap.foldl (fun a e => max a (e.1.1 + 1)) 0 := by
        rw [hcons, List.foldl_cons]
        calc 1 ≤ max 0 (f.1.1 + 1) := by omega
        _ ≤ _ := foldl_max_le (fun e => e.1.1 + 1) rest _
      have hlen : (rowSumsFold m.emap (List.replicate
          (m.emap.foldl (fun a e => max a (e.1.1 + 1)) 0) 0)).length
          = m.emap.foldl (fun a e => max a (e.1.1 + 1)) 0 := by
        rw [length_rowSumsFold, List.length_replicate]
      simp only [maxNormUncompressed]
      apply maxElem_isSome
      intro hnil
      rw [hnil] at hlen
      simp at hlen
      omega
  · exact ⟨rfl, rfl, fun x => rfl, rfl, rfl, rfl, rfl, fun x => rfl⟩

/-- Witness for C10 (amended): the non-empty-store component applied to the
concrete mapping `exM1`. -/
theorem dimension_inference_definedness_applied :
    (compress .row (uncState exM1)).isSome ∧
    (compress .col (uncState exM1)).isSome ∧
    (matVecUncompressed .row (uncState exM1) []).isSome ∧
    (oneNormUncompressed .col (uncState exM1)).isSome ∧
    (maxNormUncompressed .row (uncState exM1)).isSome ∧
    (oneNormUncompressed .row (uncState exM1)).isSome ∧
    (maxNormUncompressed .col (uncState exM1)).isSome :=
  dimension_inference_definedness.1 (uncState exM1) [] (by decide)

end PacsCH2
